import Mathlib

/-!
Verification of the content-hash-and-signature subsystem of the cicero
repository (packages/cicero-core/src/template.js and contractinstance.js).

The JavaScript classes are shallowly embedded: each method becomes a Lean
function over an explicit state record, JS exceptions become `Except Err`,
and mutation becomes state passing.  External collaborators that the
source calls through narrow interfaces (the json-stable-stringify module,
node's SHA-256 digest, and the forge/crypto PKCS#12 and RSA-SHA256
toolkit) are modelled from the spec at their interface boundary; each such
definition carries a doc comment starting with `Modelled from the spec:`.
-/

/-! ## JSON values and canonical serialization -/

mutual

/-- A JSON-like value, the shape of the plain objects the source hashes
(`content` in `getHash`, template metadata, bound contract data). -/
inductive JValue where
  | null : JValue
  | bool : Bool → JValue
  | num : Int → JValue
  | str : String → JValue
  | arr : JArr → JValue
  | obj : JFields → JValue

/-- A list of JSON array elements. -/
inductive JArr where
  | nil : JArr
  | cons : JValue → JArr → JArr

/-- The fields of a JSON object, in insertion order. -/
inductive JFields where
  | nil : JFields
  | cons : String → JValue → JFields → JFields

end

/-- JS property assignment `o[k] = v`: overwrite the value at an existing
key, keeping its position, or append a fresh key at the end. -/
def objSet : JFields → String → JValue → JFields
  | .nil, k, v => .cons k v .nil
  | .cons k1 v1 r, k, v =>
      if k1 = k then .cons k1 v r else .cons k1 v1 (objSet r k v)

/-- Lexicographic character-list comparison, the order in which the
default array sort of json-stable-stringify compares key strings. -/
def charListLt : List Char → List Char → Bool
  | [], [] => false
  | [], _ :: _ => true
  | _ :: _, [] => false
  | a :: as, b :: bs =>
      if a < b then true else if b < a then false else charListLt as bs

/-- Lexicographic order on key strings. -/
def keyLt (a b : String) : Bool := charListLt a.data b.data

/-- Insert a field into a key-sorted field list. -/
def insertSorted (k : String) (v : JValue) : JFields → JFields
  | .nil => .cons k v .nil
  | .cons k1 v1 r =>
      if keyLt k k1 then .cons k v (.cons k1 v1 r)
      else .cons k1 v1 (insertSorted k v r)

/-- Sort the fields of one object level by key (insertion sort). -/
def sortFields : JFields → JFields
  | .nil => .nil
  | .cons k v r => insertSorted k v (sortFields r)

mutual

/-- Modelled from the spec: the canonical key ordering pass of the external
json-stable-stringify module — every object level has its keys sorted. -/
def sortJ : JValue → JValue
  | .null => .null
  | .bool b => .bool b
  | .num n => .num n
  | .str s => .str s
  | .arr xs => .arr (sortJArr xs)
  | .obj fs => .obj (sortFields (sortJFields fs))

/-- Key-sorting pass, mapped over array elements. -/
def sortJArr : JArr → JArr
  | .nil => .nil
  | .cons v r => .cons (sortJ v) (sortJArr r)

/-- Key-sorting pass, mapped over the values of an object. -/
def sortJFields : JFields → JFields
  | .nil => .nil
  | .cons k v r => .cons k (sortJ v) (sortJFields r)

end

/-- Escape one character for a JSON string literal. -/
def escChar (c : Char) : String :=
  if c = '"' then "\\\"" else if c = '\\' then "\\\\" else String.singleton c

/-- Escape a list of characters for a JSON string literal. -/
def escapeList : List Char → String
  | [] => ""
  | c :: cs => escChar c ++ escapeList cs

/-- Escape the body of a JSON string literal. -/
def escapeJson (s : String) : String := escapeList s.data

/-- A JSON string literal: quote and escape. -/
def quoteJson (s : String) : String := "\"" ++ escapeJson s ++ "\""

mutual

/-- Serialize a (key-sorted) JSON value to its JSON text. -/
def jstr : JValue → String
  | .null => "null"
  | .bool b => if b then "true" else "false"
  | .num n => toString n
  | .str s => quoteJson s
  | .arr xs => "[" ++ jstrArr xs ++ "]"
  | .obj fs => "\x7b" ++ jstrFields fs ++ "\x7d"

/-- Serialize array elements, comma separated. -/
def jstrArr : JArr → String
  | .nil => ""
  | .cons v .nil => jstr v
  | .cons v r => jstr v ++ "," ++ jstrArr r

/-- Serialize object fields, comma separated. -/
def jstrFields : JFields → String
  | .nil => ""
  | .cons k v .nil => quoteJson k ++ ":" ++ jstr v
  | .cons k v r => quoteJson k ++ ":" ++ jstr v ++ "," ++ jstrFields r

end

/-- Modelled from the spec: the external json-stable-stringify module —
deterministic serialization with map keys sorted at every level, so that
semantically identical content always yields the same byte string. -/
def stableStringify (v : JValue) : String := jstr (sortJ v)

/-! ## Cryptographic primitives, modelled at their interface -/

/-- Modelled from the spec: node's `crypto.createHash('sha256')` digest,
idealized as a collision-free function of its input byte string (the spec
inherits collision resistance from the underlying 256-bit digest).  The
hex output is represented symbolically. -/
def sha256Hex (s : String) : String := "sha256:" ++ s

/-- Modelled from the spec: a PEM-encoded X.509 certificate, reduced to
the public key it carries (public keys are identified by a `Nat` id). -/
structure CertPem where
  pubId : Nat
  deriving DecidableEq, Repr

/-- Modelled from the spec: a hex-encoded detached signature, reduced to
the signing key id and the exact byte string that was signed (ideal
unforgeable RSA-SHA256: a signature exists only for the message and key
it was produced with). -/
structure SigHex where
  keyId : Nat
  message : String
  deriving DecidableEq, Repr

/-- Modelled from the spec: `crypto.createSign('SHA256')` followed by
`sign(privateKey, 'hex')` over an accumulated message. -/
def cryptoSign (privId : Nat) (msg : String) : SigHex := ⟨privId, msg⟩

/-- Modelled from the spec: `crypto.createVerify('SHA256')` followed by
`verify(publicKey, signature, 'hex')`: true only for a valid signature by
the matching key over exactly the presented message. -/
def cryptoVerify (pubId : Nat) (sig : SigHex) (msg : String) : Bool :=
  sig.keyId == pubId && sig.message == msg

/-- Modelled from the spec: the certificate/private-key pair held by a
PKCS#12 keystore (the source takes the first bag of each collection). -/
structure KeyMaterial where
  certPubId : Nat
  privId : Nat
  deriving DecidableEq, Repr

/-- Modelled from the spec: an encrypted PKCS#12 keystore blob — the key
material it holds together with the passphrase that encrypts it. -/
structure P12 where
  material : KeyMaterial
  passphrase : String
  deriving DecidableEq, Repr

/-- Errors thrown by the subsystem (`throw new Error(...)` in the source,
plus the TypeError a JS property read on `undefined` raises). -/
inductive Err where
  | missingSignature
  | invalidSignature
  | noSignatures
  | keyMaterialError
  | typeError
  deriving DecidableEq, Repr

/-- Modelled from the spec: `forge.util.decode64` / `forge.asn1.fromDer` /
`forge.pkcs12.pkcs12FromAsn1(p12Asn1, false, passphrase)` — decryption
succeeds exactly when the passphrase is the one the blob was encrypted
with, and yields the contained key material. -/
def decodeP12 (p12File : P12) (passphrase : String) : Except Err KeyMaterial :=
  if passphrase = p12File.passphrase then .ok p12File.material
  else .error .keyMaterialError

/-! ## Model and script files -/

/-- A model file as `getHash` reads it: `file.namespace` (here `nspace`,
since `namespace` is a Lean keyword) and `file.content`. -/
structure ModelFile where
  nspace : String
  content : String
  deriving DecidableEq, Repr

/-- A script file as `getHash` reads it: `file.getIdentifier()` and
`file.contents`. -/
structure ScriptFile where
  identifier : String
  contents : String
  deriving DecidableEq, Repr

/-- `content.models[file.namespace] = file.content` over all model files
(`modelFiles.forEach` in `getHash`). -/
def buildModels (ms : List ModelFile) : JFields :=
  ms.foldl (fun acc f => objSet acc f.nspace (JValue.str f.content)) JFields.nil

/-- `content.scripts[file.getIdentifier()] = file.contents` over all
script files (`scriptFiles.forEach` in `getHash`). -/
def buildScripts (ss : List ScriptFile) : JFields :=
  ss.foldl (fun acc f => objSet acc f.identifier (JValue.str f.contents)) JFields.nil

/-! ## Template (template.js) -/

/-- The signature object built by `Template.signTemplate`:
`\x7b templateHash, timestamp, signatoryCert, signature \x7d`. -/
structure TemplateSignature where
  templateHash : String
  timestamp : Nat
  signatoryCert : CertPem
  signature : SigHex
  deriving DecidableEq, Repr

/-- The two shapes `this.authorSignature` takes in the source: `flat` is
the plain object `signTemplate` stores; `wrapped` is an object whose
`templateSignature` property holds the record, the shape
`verifyTemplateSignature` reads (`authorSignature.templateSignature.*`). -/
inductive AuthorSignature where
  | flat : TemplateSignature → AuthorSignature
  | wrapped : TemplateSignature → AuthorSignature
  deriving DecidableEq, Repr

/-- The Template state: its content fields as `getHash` reads them
(`metadata` is the `getMetadata().toJSON()` value, `grammar` is
`parserManager.getTemplate()`, `null` or the grammar text), plus the
author signature slot. -/
structure Template where
  metadata : JValue
  grammar : Option String
  models : List ModelFile
  scripts : List ScriptFile
  authorSignature : Option AuthorSignature

/-- The `content` object assembled by `Template.getHash`: `metadata`,
then `grammar` only if `parserManager.getTemplate()` is truthy (a JS
string is falsy exactly when empty), then `models` and `scripts`. -/
def templateContent (t : Template) : JValue :=
  let fs := objSet JFields.nil "metadata" t.metadata
  let fs := match t.grammar with
    | some g => if g = "" then fs else objSet fs "grammar" (JValue.str g)
    | none => fs
  let fs := objSet fs "models" (JValue.obj (buildModels t.models))
  let fs := objSet fs "scripts" (JValue.obj (buildScripts t.scripts))
  JValue.obj fs

/-- `Template.getHash`: SHA-256 of the stable stringify of the content
object, hex encoded. -/
def Template.getHash (t : Template) : String :=
  sha256Hex (stableStringify (templateContent t))

/-- The byte string `Template.signTemplate` signs:
`sign.write(templateHash + timestamp)`. -/
def Template.signPayload (templateHash : String) (timestamp : Nat) : String :=
  templateHash ++ toString timestamp

/-- The byte string `Template.verifyTemplateSignature` verifies:
`verify.write(templateHash + timestamp)`. -/
def Template.verifyPayload (templateHash : String) (timestamp : Nat) : String :=
  templateHash ++ toString timestamp

/-- `Template.signTemplate`: hash the current content, extract key
material from the keystore, sign `templateHash + timestamp`, and store
the flat signature object in `this.authorSignature`. -/
def Template.signTemplate (t : Template) (p12File : P12) (passphrase : String)
    (timestamp : Nat) : Except Err Template :=
  let templateHash := Template.getHash t
  match decodeP12 p12File passphrase with
  | .error e => .error e
  | .ok p12 =>
      let certificatePem : CertPem := ⟨p12.certPubId⟩
      let signature := cryptoSign p12.privId (Template.signPayload templateHash timestamp)
      .ok { t with
              authorSignature :=
                some (.flat ⟨templateHash, timestamp, certificatePem, signature⟩) }

/-- `Template.verifyTemplateSignature`: recompute the hash from current
content, require a non-null `authorSignature`, then read
`authorSignature.templateSignature.signature` (and timestamp and cert) —
on the flat shape that property chain reads a field of `undefined` and
raises a TypeError — and verify `templateHash + timestamp`. -/
def Template.verifyTemplateSignature (t : Template) : Except Err Unit :=
  let templateHash := Template.getHash t
  match t.authorSignature with
  | none => .error .missingSignature
  | some (.flat _) => .error .typeError
  | some (.wrapped s) =>
      let result := cryptoVerify s.signatoryCert.pubId s.signature
        (Template.verifyPayload templateHash s.timestamp)
      if result = false then .error .invalidSignature else .ok ()

/-! ## ContractInstance (contractinstance.js) -/

/-- The signature object built by `ContractInstance.sign`:
`\x7b signatory, contractHash, timestamp, signatoryCert, signature \x7d`. -/
structure SignatureRecord where
  signatory : String
  contractHash : String
  timestamp : Nat
  signatoryCert : CertPem
  signature : SigHex
  deriving DecidableEq, Repr

/-- Operations recorded in the history log (spec §3: `instantiate` at
construction, `sign` for each signing). -/
inductive HistoryOp where
  | instantiate
  | sign
  deriving DecidableEq, Repr, BEq

/-- Modelled from the spec: one entry of the append-only HistoryLog
(`\x7b operation, currentState, timestamp \x7d`; the state snapshot is
reduced to the operation tag the tests observe).  The `Instance` base
class that owns the log is not part of the sources. -/
structure HistoryEntry where
  operation : HistoryOp
  timestamp : Nat
  deriving DecidableEq, Repr

/-- The ContractInstance state: content fields as its `getHash` reads
them (`metadata`, the parser grammar, models, scripts and the bound
`data` from `getData()`), plus the party signature sequence and the
history log. -/
structure ContractInstance where
  metadata : JValue
  grammar : Option String
  models : List ModelFile
  scripts : List ScriptFile
  data : JValue
  contractSignatures : List SignatureRecord
  history : List HistoryEntry

/-- The `content` object assembled by `ContractInstance.getHash`: as for
a template, plus `content.data = this.getData()` (assigned last). -/
def instanceContent (i : ContractInstance) : JValue :=
  let fs := objSet JFields.nil "metadata" i.metadata
  let fs := match i.grammar with
    | some g => if g = "" then fs else objSet fs "grammar" (JValue.str g)
    | none => fs
  let fs := objSet fs "models" (JValue.obj (buildModels i.models))
  let fs := objSet fs "scripts" (JValue.obj (buildScripts i.scripts))
  let fs := objSet fs "data" i.data
  JValue.obj fs

/-- `ContractInstance.getHash`: SHA-256 of the stable stringify of the
content object (including the bound data), hex encoded. -/
def ContractInstance.getHash (i : ContractInstance) : String :=
  sha256Hex (stableStringify (instanceContent i))

/-- The byte string `ContractInstance.sign` signs:
`sign.write(contractHash + timestamp)`. -/
def ContractInstance.signPayload (contractHash : String) (timestamp : Nat) : String :=
  contractHash ++ toString timestamp

/-- The byte string `ContractInstance.verify` verifies:
`verify.write(contractHash + timestamp)`. -/
def ContractInstance.verifyPayload (contractHash : String) (timestamp : Nat) : String :=
  contractHash ++ toString timestamp

/-- `ContractInstance.verify`: recompute the hash from current content,
extract the public key from the signatory certificate, verify
`contractHash + timestamp`; throw on an invalid signature, return true
otherwise. -/
def ContractInstance.verify (i : ContractInstance) (signature : SigHex)
    (timestamp : Nat) (signatoryCert : CertPem) : Except Err Bool :=
  let contractHash := ContractInstance.getHash i
  let result := cryptoVerify signatoryCert.pubId signature
    (ContractInstance.verifyPayload contractHash timestamp)
  if result = false then .error .invalidSignature else .ok true

/-- The `forEach` in `verifySignatures`: verify each attached signature
in order; the first invalid one throws and aborts the whole call. -/
def ContractInstance.verifyAll (i : ContractInstance) :
    List SignatureRecord → Except Err Unit
  | [] => .ok ()
  | r :: rest =>
      match ContractInstance.verify i r.signature r.timestamp r.signatoryCert with
      | .error e => .error e
      | .ok _ => ContractInstance.verifyAll i rest

/-- `ContractInstance.verifySignatures(standaloneVerify)`: when called as
a standalone check with zero signatures, throw; otherwise verify every
attached signature against the current recomputed hash and return true. -/
def ContractInstance.verifySignatures (i : ContractInstance)
    (standaloneVerify : Bool) : Except Err Bool :=
  if standaloneVerify ∧ i.contractSignatures.length = 0 then .error .noSignatures
  else
    match ContractInstance.verifyAll i i.contractSignatures with
    | .error e => .error e
    | .ok _ => .ok true

/-- `ContractInstance.sign`: hash the current content, extract key
material from the keystore, sign `contractHash + timestamp`, and push
the signature object onto `this.contractSignatures`.  Returns the state
after the call together with its outcome; a keystore failure throws
before anything is pushed. -/
def ContractInstance.sign (i : ContractInstance) (p12File : P12)
    (passphrase : String) (timestamp : Nat) (signatory : String) :
    ContractInstance × Except Err Unit :=
  let contractHash := ContractInstance.getHash i
  match decodeP12 p12File passphrase with
  | .error e => (i, .error e)
  | .ok p12 =>
      let certificatePem : CertPem := ⟨p12.certPubId⟩
      let signature := cryptoSign p12.privId
        (ContractInstance.signPayload contractHash timestamp)
      let signatureObject : SignatureRecord :=
        ⟨signatory, contractHash, timestamp, certificatePem, signature⟩
      ({ i with contractSignatures := i.contractSignatures ++ [signatureObject] },
       .ok ())

/-- `ContractInstance.signContract`: first `this.verifySignatures()`
(called with no argument, so `standaloneVerify` is falsy), then
`Date.now()` (the `now` parameter), then `this.sign(...)`; persisting via
`toSlc` follows.  Modelled from the spec: the persist step appends one
`sign` entry to the HistoryLog (the `Instance` base class holding the log
is not part of the sources). -/
def ContractInstance.signContract (i : ContractInstance) (p12File : P12)
    (passphrase : String) (signatory : String) (now : Nat) :
    ContractInstance × Except Err Unit :=
  match ContractInstance.verifySignatures i false with
  | .error e => (i, .error e)
  | .ok _ =>
      match ContractInstance.sign i p12File passphrase now signatory with
      | (i1, .error e) => (i1, .error e)
      | (i1, .ok _) =>
          ({ i1 with history := i1.history ++ [⟨HistoryOp.sign, now⟩] }, .ok ())

/-- Modelled from the spec: the history log seeded at construction —
index 0 is the `instantiate` entry. -/
def initialHistory (now : Nat) : List HistoryEntry :=
  [⟨HistoryOp.instantiate, now⟩]

/-! ## String-level helper lemmas -/

/-- Appending strings appends their character lists. -/
theorem sdata_append (a b : String) : (a ++ b).data = a.data ++ b.data := by
  cases a; cases b; rfl

/-- Strings with the same character list are equal. -/
theorem sdata_inj {a b : String} (h : a.data = b.data) : a = b := by
  cases a; cases b; exact congrArg String.mk h

/-- Left cancellation for string append. -/
theorem sappend_left_cancel {a b c : String} (h : a ++ b = a ++ c) : b = c := by
  apply sdata_inj
  have h2 := congrArg String.data h
  rw [sdata_append, sdata_append] at h2
  exact List.append_cancel_left h2

/-- Right cancellation for string append. -/
theorem sappend_right_cancel {a b c : String} (h : a ++ c = b ++ c) : a = b := by
  apply sdata_inj
  have h2 := congrArg String.data h
  rw [sdata_append, sdata_append] at h2
  exact List.append_cancel_right h2

/-- The idealized digest is collision free. -/
theorem sha256Hex_inj {a b : String} (h : sha256Hex a = sha256Hex b) : a = b :=
  sappend_left_cancel h

/-! ## Hash helper lemmas -/

/-- The instance hash reads only the content fields: signatures and
history do not enter the content object. -/
theorem instance_hash_ignores_noncontent (i : ContractInstance)
    (ss : List SignatureRecord) (hh : List HistoryEntry) :
    ContractInstance.getHash { i with contractSignatures := ss, history := hh } =
      ContractInstance.getHash i := by
  obtain ⟨m, g, mo, sc, d, ss0, hh0⟩ := i
  rfl

/-- The template hash reads only the content fields: the author signature
slot does not enter the content object. -/
theorem template_hash_ignores_signature (t : Template) (s : Option AuthorSignature) :
    Template.getHash { t with authorSignature := s } = Template.getHash t := by
  obtain ⟨m, g, mo, sc, s0⟩ := t
  rfl

/-- If two instances agree on all content fields except possibly the
bound data and their hashes agree, the canonical serializations of their
bound data agree (the data occupies a fixed slot of the canonical content
string, and the digest is collision free). -/
theorem getHash_data_inj (i1 i2 : ContractInstance)
    (hm : i1.metadata = i2.metadata) (hg : i1.grammar = i2.grammar)
    (hmo : i1.models = i2.models) (hsc : i1.scripts = i2.scripts)
    (hh : ContractInstance.getHash i1 = ContractInstance.getHash i2) :
    stableStringify i1.data = stableStringify i2.data := by
  obtain ⟨m1, g1, mo1, sc1, d1, ss1, hh1⟩ := i1
  obtain ⟨m2, g2, mo2, sc2, d2, ss2, hh2⟩ := i2
  simp only at hm hg hmo hsc
  subst hm hg hmo hsc
  show stableStringify d1 = stableStringify d2
  match g1 with
  | none =>
    have e := sha256Hex_inj hh
    have e2 := sappend_left_cancel (sappend_right_cancel e)
    exact sappend_left_cancel (sappend_right_cancel (sappend_right_cancel e2))
  | some g =>
    by_cases hge : g = ""
    · subst hge
      have e := sha256Hex_inj hh
      have e2 := sappend_left_cancel (sappend_right_cancel e)
      exact sappend_left_cancel (sappend_right_cancel (sappend_right_cancel e2))
    · have e1 : ContractInstance.getHash ⟨m1, some g, mo1, sc1, d1, ss1, hh1⟩ =
        sha256Hex ("\x7b" ++ (quoteJson "data" ++ ":" ++ jstr (sortJ d1) ++ "," ++
          jstrFields (JFields.cons "grammar" (sortJ (JValue.str g))
            (JFields.cons "metadata" (sortJ m1)
              (JFields.cons "models" (sortJ (JValue.obj (buildModels mo1)))
                (JFields.cons "scripts" (sortJ (JValue.obj (buildScripts sc1))) JFields.nil))))) ++
          "\x7d") := by
        simp only [ContractInstance.getHash, instanceContent, if_neg hge]
        rfl
      have e1b : ContractInstance.getHash ⟨m1, some g, mo1, sc1, d2, ss2, hh2⟩ =
        sha256Hex ("\x7b" ++ (quoteJson "data" ++ ":" ++ jstr (sortJ d2) ++ "," ++
          jstrFields (JFields.cons "grammar" (sortJ (JValue.str g))
            (JFields.cons "metadata" (sortJ m1)
              (JFields.cons "models" (sortJ (JValue.obj (buildModels mo1)))
                (JFields.cons "scripts" (sortJ (JValue.obj (buildScripts sc1))) JFields.nil))))) ++
          "\x7d") := by
        simp only [ContractInstance.getHash, instanceContent, if_neg hge]
        rfl
      rw [e1, e1b] at hh
      have e := sha256Hex_inj hh
      have e2 := sappend_left_cancel (sappend_right_cancel e)
      exact sappend_left_cancel (sappend_right_cancel (sappend_right_cancel e2))

/-! ## Verification helper lemmas -/

/-- Appending the same timestamp text to different hashes keeps the
payloads different. -/
theorem payload_ne_of_hash_ne {h1 h2 t : String} (h : h1 ≠ h2) :
    h1 ++ t ≠ h2 ++ t :=
  fun e => h (sappend_right_cancel e)

/-- Symbolic verification rejects a signature over a different message. -/
theorem cryptoVerify_false_of_message_ne {p : Nat} {sig : SigHex} {msg : String}
    (h : sig.message ≠ msg) : cryptoVerify p sig msg = false := by
  simp [cryptoVerify, h]

/-- `ContractInstance.verify` has exactly one failure mode: the invalid
signature error. -/
theorem verify_error_eq {i : ContractInstance} {s : SigHex} {ts : Nat}
    {c : CertPem} {e : Err}
    (h : ContractInstance.verify i s ts c = .error e) : e = .invalidSignature := by
  unfold ContractInstance.verify at h
  by_cases hr : cryptoVerify c.pubId s
    (ContractInstance.verifyPayload (ContractInstance.getHash i) ts) = false
  · rw [if_pos hr] at h
    exact ((Except.error.injEq _ _).mp h).symm
  · rw [if_neg hr] at h
    exact absurd h (by simp)

/-- If some attached record fails verification against the current hash,
the `forEach` of `verifySignatures` throws the invalid signature error. -/
theorem verifyAll_error_of_mem {i : ContractInstance} {rs : List SignatureRecord}
    {r : SignatureRecord} (hmem : r ∈ rs) {e : Err}
    (hfail : ContractInstance.verify i r.signature r.timestamp r.signatoryCert = .error e) :
    ContractInstance.verifyAll i rs = .error .invalidSignature := by
  induction rs with
  | nil => cases hmem
  | cons hd tl ih =>
    rcases List.mem_cons.mp hmem with hEq | hTl
    · subst hEq
      have he := verify_error_eq hfail
      subst he
      unfold ContractInstance.verifyAll
      rw [hfail]
    · unfold ContractInstance.verifyAll
      cases hv : ContractInstance.verify i hd.signature hd.timestamp hd.signatoryCert with
      | error e2 =>
        have he := verify_error_eq hv
        subst he
        rfl
      | ok b => exact ih hTl

/-! ## Sample artifacts used by the witness theorems -/

/-- A small unsigned template. -/
def sampleTemplate : Template :=
  ⟨JValue.str "meta", none,
   [⟨"org.example@1.0.0", "concept C \x7b\x7d"⟩],
   [⟨"logic.ergo", "some logic"⟩], none⟩

/-- The same template content carrying an author signature. -/
def sampleTemplateSigned : Template :=
  { sampleTemplate with
      authorSignature := some (.wrapped ⟨"h", 1, ⟨1⟩, ⟨1, "m"⟩⟩) }

/-- A small unsigned contract instance with bound data and the initial
`instantiate` history entry. -/
def sampleInstance : ContractInstance :=
  ⟨JValue.str "meta", none,
   [⟨"org.example@1.0.0", "concept C \x7b\x7d"⟩],
   [⟨"logic.ergo", "some logic"⟩],
   JValue.str "D", [], initialHistory 0⟩

/-- The same instance content with an unrelated signature and history. -/
def sampleInstanceDecorated : ContractInstance :=
  { sampleInstance with
      contractSignatures := [⟨"P1", "h", 1, ⟨1⟩, ⟨1, "m"⟩⟩],
      history := initialHistory 0 ++ [⟨HistoryOp.sign, 1⟩] }

/-- A keystore whose certificate matches its private key. -/
def sampleP12 : P12 := ⟨⟨7, 7⟩, "password"⟩

/-- A second keystore for a second signing party. -/
def sampleP12b : P12 := ⟨⟨8, 8⟩, "secret"⟩

/-! ## Claim theorems -/

/-- C1: `getHash` is deterministic — it is a pure function of the
artifact state (it takes no clock or randomness input), so two calls
with no mutation in between, i.e. two evaluations at the same state,
return the same hex string, for templates and for contract instances. -/
theorem getHash_deterministic (t : Template) (i : ContractInstance) :
    Template.getHash t = Template.getHash t ∧
    ContractInstance.getHash i = ContractInstance.getHash i :=
  ⟨rfl, rfl⟩

/-- C5: on an instance with zero attached signatures,
`verifySignatures(true)` fails with the no-signatures error while
`verifySignatures(false)` vacuously succeeds with `true`. -/
theorem verifySignatures_empty (i : ContractInstance)
    (h : i.contractSignatures = []) :
    ContractInstance.verifySignatures i true = Except.error Err.noSignatures ∧
    ContractInstance.verifySignatures i false = Except.ok true := by
  unfold ContractInstance.verifySignatures
  rw [h]
  constructor
  · simp
  · simp [ContractInstance.verifyAll]

/-- Witness for C5 at a concrete unsigned instance. -/
theorem verifySignatures_empty_witness :
    ContractInstance.verifySignatures sampleInstance true = Except.error Err.noSignatures ∧
    ContractInstance.verifySignatures sampleInstance false = Except.ok true :=
  verifySignatures_empty sampleInstance rfl

/-- C6: the byte string signed and the byte string verified are the same
in all four code paths (template sign/verify, instance sign/verify), and
equal to the hash hex string followed by the decimal form of the
timestamp with no delimiter. -/
theorem payload_wire_format (hash : String) (ts : Nat) :
    Template.signPayload hash ts = hash ++ Nat.repr ts ∧
    Template.verifyPayload hash ts = hash ++ Nat.repr ts ∧
    ContractInstance.signPayload hash ts = hash ++ Nat.repr ts ∧
    ContractInstance.verifyPayload hash ts = hash ++ Nat.repr ts :=
  ⟨rfl, rfl, rfl, rfl⟩

/-- C8: `getHash` reads only the content fields: artifacts agreeing on
metadata, grammar, models, scripts (and bound data for instances) hash
identically regardless of attached signatures or history; no clock is
consulted (the function has no time input). -/
theorem getHash_content_only (t1 t2 : Template) (i1 i2 : ContractInstance)
    (ht1 : t1.metadata = t2.metadata) (ht2 : t1.grammar = t2.grammar)
    (ht3 : t1.models = t2.models) (ht4 : t1.scripts = t2.scripts)
    (hi1 : i1.metadata = i2.metadata) (hi2 : i1.grammar = i2.grammar)
    (hi3 : i1.models = i2.models) (hi4 : i1.scripts = i2.scripts)
    (hi5 : i1.data = i2.data) :
    Template.getHash t1 = Template.getHash t2 ∧
    ContractInstance.getHash i1 = ContractInstance.getHash i2 := by
  obtain ⟨tm1, tg1, tmo1, tsc1, ts1⟩ := t1
  obtain ⟨tm2, tg2, tmo2, tsc2, ts2⟩ := t2
  obtain ⟨m1, g1, mo1, sc1, d1, ss1, hh1⟩ := i1
  obtain ⟨m2, g2, mo2, sc2, d2, ss2, hh2⟩ := i2
  simp only at ht1 ht2 ht3 ht4 hi1 hi2 hi3 hi4 hi5
  subst ht1 ht2 ht3 ht4 hi1 hi2 hi3 hi4 hi5
  exact ⟨rfl, rfl⟩

/-- Witness for C8: concrete artifact pairs that differ only in
signatures and history hash identically. -/
theorem getHash_content_only_witness :
    Template.getHash sampleTemplate = Template.getHash sampleTemplateSigned ∧
    ContractInstance.getHash sampleInstance = ContractInstance.getHash sampleInstanceDecorated :=
  getHash_content_only sampleTemplate sampleTemplateSigned
    sampleInstance sampleInstanceDecorated rfl rfl rfl rfl rfl rfl rfl rfl rfl

/-- C9: verifying a template whose author signature slot is null fails
with the missing signature error. -/
theorem verify_missing_author_signature (t : Template)
    (h : t.authorSignature = none) :
    Template.verifyTemplateSignature t = Except.error Err.missingSignature := by
  unfold Template.verifyTemplateSignature
  rw [h]

/-- Witness for C9 at a concrete unsigned template. -/
theorem verify_missing_author_signature_witness :
    Template.verifyTemplateSignature sampleTemplate = Except.error Err.missingSignature :=
  verify_missing_author_signature sampleTemplate rfl

/-- C10: `ContractInstance.verify` and `verifySignatures` never return
`false`: every non-throwing execution returns `true`, and an invalid
signature surfaces only as a thrown error. -/
theorem verify_never_returns_false (i : ContractInstance) (sig : SigHex)
    (ts : Nat) (cert : CertPem) (b : Bool) :
    ContractInstance.verify i sig ts cert ≠ Except.ok false ∧
    ContractInstance.verifySignatures i b ≠ Except.ok false := by
  constructor
  · unfold ContractInstance.verify
    by_cases hr : cryptoVerify cert.pubId sig
      (ContractInstance.verifyPayload (ContractInstance.getHash i) ts) = false
    · rw [if_pos hr]; simp
    · rw [if_neg hr]; simp
  · unfold ContractInstance.verifySignatures
    by_cases hc : b = true ∧ i.contractSignatures.length = 0
    · rw [if_pos hc]; simp
    · rw [if_neg hc]
      cases hv : ContractInstance.verifyAll i i.contractSignatures <;> simp

/-! ## signContract helper lemmas -/

/-- Successful `signContract` characterized: existing signatures verified
first, key material extracted, and the state extended by exactly one
signature record (over the pre-call hash) and one `sign` history entry. -/
theorem signContract_ok_elim (i : ContractInstance) (p12File : P12)
    (passphrase signatory : String) (now : Nat) (i1 : ContractInstance)
    (h : ContractInstance.signContract i p12File passphrase signatory now =
      (i1, Except.ok ())) :
    ∃ km bv, decodeP12 p12File passphrase = Except.ok km ∧
      ContractInstance.verifySignatures i false = Except.ok bv ∧
      i1 = { i with
              contractSignatures := i.contractSignatures ++
                [⟨signatory, ContractInstance.getHash i, now, ⟨km.certPubId⟩,
                  cryptoSign km.privId
                    (ContractInstance.signPayload (ContractInstance.getHash i) now)⟩],
              history := i.history ++ [⟨HistoryOp.sign, now⟩] } := by
  unfold ContractInstance.signContract at h
  cases hv : ContractInstance.verifySignatures i false with
  | error e =>
    rw [hv] at h
    exact absurd (congrArg Prod.snd h) (by simp)
  | ok bv =>
    rw [hv] at h
    unfold ContractInstance.sign at h
    cases hd : decodeP12 p12File passphrase with
    | error e =>
      rw [hd] at h
      exact absurd (congrArg Prod.snd h) (by simp)
    | ok km =>
      rw [hd] at h
      refine ⟨km, bv, rfl, rfl, ?_⟩
      have h1 := congrArg Prod.fst h
      exact h1.symm


/-- `getHash_data_inj` with the hash hypothesis first, so that the
instance argument can be inferred from it. -/
theorem getHash_data_inj_of_hash (i1 i2 : ContractInstance)
    (hh : ContractInstance.getHash i1 = ContractInstance.getHash i2)
    (hm : i1.metadata = i2.metadata) (hg : i1.grammar = i2.grammar)
    (hmo : i1.models = i2.models) (hsc : i1.scripts = i2.scripts) :
    stableStringify i1.data = stableStringify i2.data :=
  getHash_data_inj i1 i2 hm hg hmo hsc hh

/-- If some attached record was signed over a byte string different from
the one current verification checks, the whole `verifySignatures` call
fails with the invalid signature error, for either flag value. -/
theorem verifySignatures_fails_on_stale (i2 : ContractInstance)
    (r : SignatureRecord) (hmem : r ∈ i2.contractSignatures)
    (hmsg : r.signature.message ≠
      ContractInstance.verifyPayload (ContractInstance.getHash i2) r.timestamp)
    (b : Bool) :
    ContractInstance.verifySignatures i2 b = Except.error Err.invalidSignature := by
  have hfail : ContractInstance.verify i2 r.signature r.timestamp r.signatoryCert =
      Except.error Err.invalidSignature := by
    unfold ContractInstance.verify
    rw [if_pos]
    exact cryptoVerify_false_of_message_ne hmsg
  have hall := verifyAll_error_of_mem hmem hfail
  unfold ContractInstance.verifySignatures
  rw [if_neg, hall]
  intro hc
  rcases hc with ⟨_, hlen⟩
  rw [List.length_eq_zero] at hlen
  rw [hlen] at hmem
  cases hmem

/-- C2: tamper detection.  If a contract instance is signed while holding
some bound data, and the bound data is then mutated to any value whose
canonical serialization differs, a subsequent `verifySignatures` call
(with either flag) fails with the invalid signature error: verification
recomputes the hash from the current content rather than trusting the
stored `contractHash` field of the record. -/
theorem tamper_detected (i : ContractInstance) (p12File : P12)
    (passphrase signatory : String) (now : Nat) (i1 : ContractInstance)
    (hsigned : ContractInstance.signContract i p12File passphrase signatory now =
      (i1, Except.ok ()))
    (d2 : JValue) (htamper : stableStringify d2 ≠ stableStringify i.data)
    (b : Bool) :
    ContractInstance.verifySignatures { i1 with data := d2 } b =
      Except.error Err.invalidSignature := by
  obtain ⟨km, bv, hd, hv, hi1⟩ :=
    signContract_ok_elim i p12File passphrase signatory now i1 hsigned
  subst hi1
  apply verifySignatures_fails_on_stale _
    (⟨signatory, ContractInstance.getHash i, now, ⟨km.certPubId⟩,
      cryptoSign km.privId
        (ContractInstance.signPayload (ContractInstance.getHash i) now)⟩ : SignatureRecord)
  · show _ ∈ i.contractSignatures ++ [_]
    exact List.mem_append_right _ (List.mem_singleton.mpr rfl)
  · have hne : ContractInstance.getHash i ≠
        ContractInstance.getHash
          { { i with
                contractSignatures := i.contractSignatures ++
                  [(⟨signatory, ContractInstance.getHash i, now, (⟨km.certPubId⟩ : CertPem),
                    cryptoSign km.privId
                      (ContractInstance.signPayload (ContractInstance.getHash i) now)⟩ : SignatureRecord)],
                history := i.history ++ [(⟨HistoryOp.sign, now⟩ : HistoryEntry)] } with data := d2 } := by
      intro heq
      exact htamper (getHash_data_inj_of_hash _ i heq.symm rfl rfl rfl rfl)
    exact payload_ne_of_hash_ne hne

/-- The instance obtained by signing the sample instance once. -/
def tamperSampleSigned : ContractInstance :=
  (ContractInstance.signContract sampleInstance sampleP12 "password" "P1" 100).1

/-- Witness for C2: a concrete signed instance whose data is then
replaced fails verification. -/
theorem tamper_detected_witness :
    ContractInstance.verifySignatures { tamperSampleSigned with data := JValue.str "DD" } true =
      Except.error Err.invalidSignature :=
  tamper_detected sampleInstance sampleP12 "password" "P1" 100 tamperSampleSigned rfl
    (JValue.str "DD") (by decide) true

/-- C4: `signContract` verifies all existing signatures before producing
a new one; if any existing signature is invalid the call fails with the
invalid signature error and returns the instance unchanged — no partial
signature record or history entry is committed. -/
theorem signContract_checks_existing_first (i : ContractInstance) (p12File : P12)
    (passphrase signatory : String) (now : Nat) (r : SignatureRecord) (e : Err)
    (hmem : r ∈ i.contractSignatures)
    (hbad : ContractInstance.verify i r.signature r.timestamp r.signatoryCert =
      Except.error e) :
    ContractInstance.signContract i p12File passphrase signatory now =
      (i, Except.error Err.invalidSignature) := by
  have hall := verifyAll_error_of_mem hmem hbad
  have hv : ContractInstance.verifySignatures i false = Except.error Err.invalidSignature := by
    unfold ContractInstance.verifySignatures
    rw [if_neg, hall]
    simp
  unfold ContractInstance.signContract
  rw [hv]

/-- Witness for C4: signing a concrete instance that carries a garbage
signature fails and leaves the instance unchanged. -/
theorem signContract_checks_existing_first_witness :
    ContractInstance.signContract sampleInstanceDecorated sampleP12 "password" "P2" 200 =
      (sampleInstanceDecorated, Except.error Err.invalidSignature) :=
  signContract_checks_existing_first sampleInstanceDecorated sampleP12 "password" "P2" 200
    ⟨"P1", "h", 1, ⟨1⟩, ⟨1, "m"⟩⟩ Err.invalidSignature (by decide) rfl

/-- The signature record `ContractInstance.sign` builds from a hash, a
timestamp and extracted key material. -/
def freshRecord (signatory : String) (hash : String) (ts : Nat)
    (km : KeyMaterial) : SignatureRecord :=
  ⟨signatory, hash, ts, ⟨km.certPubId⟩,
   cryptoSign km.privId (ContractInstance.signPayload hash ts)⟩

/-- The state after a successful `signContract`: one record appended to
the signature sequence and one `sign` entry appended to the history. -/
def signedState (i : ContractInstance) (r : SignatureRecord) (now : Nat) :
    ContractInstance :=
  { i with contractSignatures := i.contractSignatures ++ [r],
           history := i.history ++ [⟨HistoryOp.sign, now⟩] }

/-- `verifySignatures(false)` on an instance with no signatures succeeds
vacuously. -/
theorem verifySignatures_false_nil (i : ContractInstance)
    (h : i.contractSignatures = []) :
    ContractInstance.verifySignatures i false = Except.ok true := by
  unfold ContractInstance.verifySignatures
  rw [h]
  simp [ContractInstance.verifyAll]

/-- A record signed with key material whose certificate matches its
private key, over the hash current verification recomputes, verifies. -/
theorem verify_fresh_ok (i1 : ContractInstance) (privId certId : Nat)
    (hash : String) (ts : Nat) (hkey : certId = privId)
    (hhash : ContractInstance.getHash i1 = hash) :
    ContractInstance.verify i1
      (cryptoSign privId (ContractInstance.signPayload hash ts)) ts ⟨certId⟩ =
      Except.ok true := by
  subst hkey
  subst hhash
  unfold ContractInstance.verify
  rw [if_neg]
  intro hfalse
  simp [cryptoVerify, cryptoSign, ContractInstance.signPayload,
    ContractInstance.verifyPayload] at hfalse

/-- `verifySignatures(false)` on an instance whose single attached record
verifies succeeds. -/
theorem verifySignatures_false_single (i1 : ContractInstance)
    (r : SignatureRecord) (hsigs : i1.contractSignatures = [r])
    (hok : ContractInstance.verify i1 r.signature r.timestamp r.signatoryCert =
      Except.ok true) :
    ContractInstance.verifySignatures i1 false = Except.ok true := by
  unfold ContractInstance.verifySignatures
  rw [hsigs, if_neg (by simp)]
  unfold ContractInstance.verifyAll
  rw [hok]
  simp [ContractInstance.verifyAll]

/-- C7: multi-party ordering.  Starting from an instance with no
signatures and no `sign` history entries, signing with party P1 and then
party P2 (both with valid key material) succeeds both times and yields
exactly two `sign` history entries in that order and a signature
sequence whose first signatory is P1 and second is P2: records are
appended in signing order, never reordered or deduplicated. -/
theorem multi_party_ordering (i : ContractInstance) (pa pb : P12)
    (spa spb P1 P2 : String) (t1 t2 : Nat) (kma kmb : KeyMaterial)
    (h0sig : i.contractSignatures = [])
    (h0hist : List.filter (fun hEnt => hEnt.operation == HistoryOp.sign) i.history = [])
    (hka : decodeP12 pa spa = Except.ok kma) (hva : kma.certPubId = kma.privId)
    (hkb : decodeP12 pb spb = Except.ok kmb) (hvb : kmb.certPubId = kmb.privId) :
    (ContractInstance.signContract i pa spa P1 t1).2 = Except.ok () ∧
    (ContractInstance.signContract (ContractInstance.signContract i pa spa P1 t1).1
      pb spb P2 t2).2 = Except.ok () ∧
    List.map SignatureRecord.signatory
      (ContractInstance.signContract (ContractInstance.signContract i pa spa P1 t1).1
        pb spb P2 t2).1.contractSignatures = [P1, P2] ∧
    List.filter (fun hEnt => hEnt.operation == HistoryOp.sign)
      (ContractInstance.signContract (ContractInstance.signContract i pa spa P1 t1).1
        pb spb P2 t2).1.history =
      [⟨HistoryOp.sign, t1⟩, ⟨HistoryOp.sign, t2⟩] := by
  have hv1 := verifySignatures_false_nil i h0sig
  have e1 : ContractInstance.signContract i pa spa P1 t1 =
      (signedState i (freshRecord P1 (ContractInstance.getHash i) t1 kma) t1,
       Except.ok ()) := by
    unfold ContractInstance.signContract ContractInstance.sign
    rw [hv1, hka]
    rfl
  have hh1 : ContractInstance.getHash
      (signedState i (freshRecord P1 (ContractInstance.getHash i) t1 kma) t1) =
      ContractInstance.getHash i :=
    instance_hash_ignores_noncontent i _ _
  have hsigs1 : (signedState i (freshRecord P1 (ContractInstance.getHash i) t1 kma) t1).contractSignatures =
      [freshRecord P1 (ContractInstance.getHash i) t1 kma] := by
    simp [signedState, h0sig]
  have hok1 : ContractInstance.verify
      (signedState i (freshRecord P1 (ContractInstance.getHash i) t1 kma) t1)
      (freshRecord P1 (ContractInstance.getHash i) t1 kma).signature
      (freshRecord P1 (ContractInstance.getHash i) t1 kma).timestamp
      (freshRecord P1 (ContractInstance.getHash i) t1 kma).signatoryCert =
      Except.ok true :=
    verify_fresh_ok _ kma.privId kma.certPubId (ContractInstance.getHash i) t1 hva hh1
  have hv2 := verifySignatures_false_single _ _ hsigs1 hok1
  have e2 : ContractInstance.signContract
      (signedState i (freshRecord P1 (ContractInstance.getHash i) t1 kma) t1) pb spb P2 t2 =
      (signedState (signedState i (freshRecord P1 (ContractInstance.getHash i) t1 kma) t1)
        (freshRecord P2
          (ContractInstance.getHash
            (signedState i (freshRecord P1 (ContractInstance.getHash i) t1 kma) t1))
          t2 kmb) t2,
       Except.ok ()) := by
    unfold ContractInstance.signContract ContractInstance.sign
    rw [hv2, hkb]
    rfl
  have efst : (ContractInstance.signContract i pa spa P1 t1).1 =
      signedState i (freshRecord P1 (ContractInstance.getHash i) t1 kma) t1 := by
    rw [e1]
  refine ⟨by rw [e1], ?_, ?_, ?_⟩
  · rw [efst, e2]
  · rw [efst, e2]
    simp [signedState, freshRecord, h0sig]
  · rw [efst, e2]
    simp [signedState, h0hist, List.filter_append]
    rfl

/-- Witness for C7: concrete two-party signing of the sample instance. -/
theorem multi_party_ordering_witness :
    (ContractInstance.signContract sampleInstance sampleP12 "password" "P1" 10).2 =
      Except.ok () ∧
    (ContractInstance.signContract
      (ContractInstance.signContract sampleInstance sampleP12 "password" "P1" 10).1
      sampleP12b "secret" "P2" 20).2 = Except.ok () ∧
    List.map SignatureRecord.signatory
      (ContractInstance.signContract
        (ContractInstance.signContract sampleInstance sampleP12 "password" "P1" 10).1
        sampleP12b "secret" "P2" 20).1.contractSignatures = ["P1", "P2"] ∧
    List.filter (fun hEnt => hEnt.operation == HistoryOp.sign)
      (ContractInstance.signContract
        (ContractInstance.signContract sampleInstance sampleP12 "password" "P1" 10).1
        sampleP12b "secret" "P2" 20).1.history =
      [⟨HistoryOp.sign, 10⟩, ⟨HistoryOp.sign, 20⟩] :=
  multi_party_ordering sampleInstance sampleP12 sampleP12b "password" "secret"
    "P1" "P2" 10 20 ⟨7, 7⟩ ⟨8, 8⟩ rfl rfl rfl rfl rfl rfl

/-- Re-shape a flat author signature record into the wrapped shape
`verifyTemplateSignature` expects (an object whose `templateSignature`
property holds the record), leaving other shapes unchanged. -/
def rewrap : Option AuthorSignature → Option AuthorSignature
  | some (.flat s) => some (.wrapped s)
  | x => x

/-- C3, observed behavior: `signTemplate` stores the signature record as
a flat object, but `verifyTemplateSignature` reads
`authorSignature.templateSignature.signature`, so a fresh in-memory
sign-then-verify round trip raises a TypeError instead of succeeding.
The signature itself is cryptographically sound: re-shaping the stored
record into the wrapped form the verifier expects makes the same
verification succeed, which shows only the stored shape is at fault. -/
theorem template_sign_verify_type_error :
    Except.bind (Template.signTemplate sampleTemplate sampleP12 "password" 1000)
      Template.verifyTemplateSignature = Except.error Err.typeError ∧
    Except.bind (Template.signTemplate sampleTemplate sampleP12 "password" 1000)
      (fun t => Template.verifyTemplateSignature
        { t with authorSignature := rewrap t.authorSignature }) = Except.ok () :=
  ⟨rfl, rfl⟩
